import Mathlib

/-!
Shallow embedding of the schedule generator of `src/Schedule.py`
(BGMI Tournament Schedule Generator) and proofs of the specification's
properties.

The core of the program is the function `generate_schedule` (lines
62–107 of `src/Schedule.py`): starting from per-team match counts all
zero, it produces `tournament_days` day records, each holding
`matches_per_day` match records; for each match it stable-sorts the
roster by ascending current count, takes the first `teams_per_match`
teams, falls back to `random.sample` over the not-yet-selected teams
when that prefix is too short, increments the counts of the selected
teams, and assigns consecutive match ids starting at 1.

Python's `sorted` with a key is a stable sort; `List.mergeSort` is the
library's stable sort, and for a total preorder the stable sorted
permutation is unique, so `List.mergeSort` with the count order is a
faithful embedding of the sort.  `random.sample(pop, k)` raises
`ValueError` when `k > len(pop)`; fallible evaluation is embedded as
`Option`, with `none` standing for a raised exception.  The Python dict
`team_match_count` is embedded as a total function on team names,
summed over the deduplicated roster (the dict's key set) where its
values are totalled.
-/

/-- Teams are identified by their string name (the Python team names). -/
abbrev Team := String

/-- Embedding of the dict `team_match_count`: a total function from team
names to counts.  Only the values at roster names are ever consulted. -/
abbrev Counts := Team → Nat

/-- Embedding of one match record `{"match_id": ..., "teams": ...}`
(lines 95–98). -/
structure MatchRec where
  match_id : Nat
  teams : List Team
  deriving DecidableEq

/-- Embedding of one day record `{"day": ..., "matches": ...}`
(lines 102–105).  The field holding the value of the "matches" key is
named `day_matches` after the Python local it is built from, because
`matches` is a reserved word in Lean. -/
structure DayRec where
  day : Nat
  day_matches : List MatchRec
  deriving DecidableEq

/-- Embedding of `sorted(teams, key=lambda t: team_match_count[t])`
(line 79): the stable sort of the roster by ascending current count. -/
def sorted_teams (teams : List Team) (cnt : Counts) : List Team :=
  teams.mergeSort (fun a b => decide (cnt a ≤ cnt b))

/-- Embedding of one execution of `team_match_count[team] += 1`
(line 93). -/
def bump (c : Counts) (team : Team) : Counts :=
  fun u => if u = team then c u + 1 else c u

/-- Embedding of the loop `for team in match_teams:
team_match_count[team] += 1` (lines 92–93). -/
def incr_counts (cnt : Counts) (ts : List Team) : Counts :=
  ts.foldl bump cnt

/-- Embedding of `random.sample(population, k)`: it raises `ValueError`
when `k` exceeds the population size (`none` here); otherwise it returns
`k` distinct elements of the population.  Every reachable call inside
`generate_schedule` has an empty population (theorem
`random_fill_pool_is_empty` below), so which `k` elements a successful
sample would return never influences a returned schedule; a successful
sample is represented by the first `k` elements of the population. -/
def py_sample (pop : List Team) (k : Nat) : Option (List Team) :=
  if k ≤ pop.length then some (pop.take k) else none

/-- Embedding of the body of the inner loop of `generate_schedule` that
selects the teams of one match (lines 79–89), parameterised by the
sampler standing for `random.sample`. -/
def select_match_teams (sample : List Team → Nat → Option (List Team))
    (teams : List Team) (teams_per_match : Nat) (cnt : Counts) :
    Option (List Team) :=
  let st := sorted_teams teams cnt
  let match_teams := st.take teams_per_match
  if match_teams.length < teams_per_match then
    let remaining_teams := teams.filter (fun t => decide (t ∉ match_teams))
    match sample remaining_teams (teams_per_match - match_teams.length) with
    | some additional_teams => some (match_teams ++ additional_teams)
    | none => none
  else
    some match_teams

/-- Embedding of the loop `for match in range(matches_per_day)`
(lines 77–100): the list of match records of one day, together with the
updated counts and the next match id. -/
def gen_day (sample : List Team → Nat → Option (List Team))
    (teams : List Team) (teams_per_match : Nat) :
    Nat → Counts → Nat → Option (List MatchRec × Counts × Nat)
  | 0, cnt, mid => some ([], cnt, mid)
  | m + 1, cnt, mid =>
    match select_match_teams sample teams teams_per_match cnt with
    | none => none
    | some match_teams =>
      match gen_day sample teams teams_per_match m
          (incr_counts cnt match_teams) (mid + 1) with
      | none => none
      | some (rest, cnt2, mid2) =>
        some (⟨mid, match_teams⟩ :: rest, cnt2, mid2)

/-- Embedding of the loop `for day in range(tournament_days)`
(lines 74–105); the `Nat` argument after the sampler-roster-parameters
is the number of days still to generate, the next one the 1-based number
of the current day. -/
def gen_days (sample : List Team → Nat → Option (List Team))
    (teams : List Team) (teams_per_match matches_per_day : Nat) :
    Nat → Nat → Counts → Nat → Option (List DayRec × Counts × Nat)
  | 0, _, cnt, mid => some ([], cnt, mid)
  | d + 1, day, cnt, mid =>
    match gen_day sample teams teams_per_match matches_per_day cnt mid with
    | none => none
    | some (day_matches, cnt1, mid1) =>
      match gen_days sample teams teams_per_match matches_per_day
          d (day + 1) cnt1 mid1 with
      | none => none
      | some (rest, cnt2, mid2) =>
        some (⟨day, day_matches⟩ :: rest, cnt2, mid2)

/-- Embedding of `generate_schedule` (lines 62–107), parameterised by
the sampler standing for `random.sample`: counts start at 0 for every
team, the day counter at 1 and the match id counter at 1, and the pair
(schedule, team_match_count) is returned. -/
def generate_schedule_with (sample : List Team → Nat → Option (List Team))
    (team_names : List Team)
    (teams_per_match tournament_days matches_per_day : Nat) :
    Option (List DayRec × Counts) :=
  match gen_days sample team_names teams_per_match matches_per_day
      tournament_days 1 (fun _ => 0) 1 with
  | none => none
  | some (schedule, cnt, _) => some (schedule, cnt)

/-- Embedding of `generate_schedule` with the model of `random.sample`
plugged in. -/
def generate_schedule (team_names : List Team)
    (teams_per_match tournament_days matches_per_day : Nat) :
    Option (List DayRec × Counts) :=
  generate_schedule_with py_sample team_names teams_per_match
    tournament_days matches_per_day

/-- Sum of the values of the `team_match_count` dict: its key set is the
deduplicated roster. -/
def sum_counts (roster : List Team) (cnt : Counts) : Nat :=
  (roster.dedup.map cnt).sum

/-- The counts transformer of one pass through the inner loop body when
the sorted prefix is full (the only reachable case for
`teams_per_match ≤ len(roster)`): increment the counts of the first
`teams_per_match` teams of the stable count-sorted roster. -/
def count_step (roster : List Team) (teams_per_match : Nat)
    (c : Counts) : Counts :=
  incr_counts c ((sorted_teams roster c).take teams_per_match)

/-- The match counts after the first `i` matches of a run of
`generate_schedule` (day structure does not influence counts). -/
def counts_after (roster : List Team) (teams_per_match i : Nat) : Counts :=
  (count_step roster teams_per_match)^[i] (fun _ => 0)

/-- All match ids of a schedule, in day-major, match-minor order. -/
def schedule_match_ids (sch : List DayRec) : List Nat :=
  (sch.map (fun d => d.day_matches.map MatchRec.match_id)).flatten

/-! ## Basic facts about the sorted roster and the count updates -/

/-- The stable sort of the roster is a permutation of the roster. -/
theorem sorted_teams_perm (teams : List Team) (cnt : Counts) :
    (sorted_teams teams cnt).Perm teams :=
  List.mergeSort_perm teams _

/-- Sorting does not change the roster length. -/
theorem length_sorted_teams (teams : List Team) (cnt : Counts) :
    (sorted_teams teams cnt).length = teams.length :=
  (sorted_teams_perm teams cnt).length_eq

/-- The sorted roster is pairwise ordered by ascending count. -/
theorem sorted_teams_pairwise (teams : List Team) (cnt : Counts) :
    List.Pairwise (fun a b => cnt a ≤ cnt b) (sorted_teams teams cnt) := by
  have h := @List.sorted_mergeSort Team
    (fun a b : Team => decide (cnt a ≤ cnt b))
    (fun a b c hab hbc => by
      simp only [decide_eq_true_iff] at *
      omega)
    (fun a b => by
      simp only [Bool.or_eq_true, decide_eq_true_iff]
      omega)
    teams
  exact h.imp (fun hab => by simpa using hab)

/-- Members of the selected prefix of the sorted roster are roster
members. -/
theorem mem_of_take_sorted {teams : List Team} {cnt : Counts} {tpm : Nat}
    {t : Team} (h : t ∈ (sorted_teams teams cnt).take tpm) : t ∈ teams :=
  (sorted_teams_perm teams cnt).mem_iff.mp
    ((List.take_sublist tpm (sorted_teams teams cnt)).subset h)

/-- When `teams_per_match ≤ len(roster)`, the selected prefix has length
exactly `teams_per_match`. -/
theorem take_sorted_length {teams : List Team} {tpm : Nat}
    (h : tpm ≤ teams.length) (cnt : Counts) :
    ((sorted_teams teams cnt).take tpm).length = tpm := by
  rw [List.length_take, length_sorted_teams]
  omega

/-- For a duplicate-free roster, the selected prefix is duplicate-free. -/
theorem nodup_take_sorted {teams : List Team} (hnd : teams.Nodup)
    (cnt : Counts) (tpm : Nat) :
    ((sorted_teams teams cnt).take tpm).Nodup :=
  (List.take_sublist tpm (sorted_teams teams cnt)).nodup
    ((sorted_teams_perm teams cnt).symm.nodup hnd)

/-- Pointwise effect of the count-update loop on a duplicate-free list
of selected teams: each selected team's count grows by one, all other
counts are unchanged. -/
theorem incr_counts_apply (ts : List Team) :
    ∀ c : Counts, ts.Nodup → ∀ t : Team,
      incr_counts c ts t = c t + (if t ∈ ts then 1 else 0) := by
  induction ts with
  | nil => intro c _ t; simp [incr_counts]
  | cons t0 rest ih =>
    intro c h t
    have h0 : t0 ∉ rest := (List.nodup_cons.mp h).1
    have hr : rest.Nodup := (List.nodup_cons.mp h).2
    have e : incr_counts c (t0 :: rest) = incr_counts (bump c t0) rest := rfl
    rw [e, ih (bump c t0) hr t]
    by_cases ht : t = t0
    · subst ht
      have hnotr : t ∉ rest := h0
      simp [bump, hnotr]
    · simp [bump, ht, List.mem_cons]

/-- When `teams_per_match ≤ len(roster)`, the random-fill branch of the
selection (lines 86–89) is not taken and the match consists of the first
`teams_per_match` teams of the count-sorted roster, whatever the
sampler. -/
theorem select_match_teams_eq (sample : List Team → Nat → Option (List Team))
    {teams : List Team} {tpm : Nat} (h : tpm ≤ teams.length) (cnt : Counts) :
    select_match_teams sample teams tpm cnt =
      some ((sorted_teams teams cnt).take tpm) := by
  unfold select_match_teams
  rw [if_neg]
  rw [take_sorted_length h]
  omega

/-- Total effect of one `bump` on the summed dict values over a
duplicate-free key list. -/
theorem sum_map_bump (l : List Team) (hl : l.Nodup) (c : Counts) (t : Team) :
    (l.map (bump c t)).sum = (l.map c).sum + (if t ∈ l then 1 else 0) := by
  induction l with
  | nil => simp
  | cons a rest ih =>
    have ha : a ∉ rest := (List.nodup_cons.mp hl).1
    have hr : rest.Nodup := (List.nodup_cons.mp hl).2
    by_cases hta : t = a
    · subst hta
      have hmap : rest.map (bump c t) = rest.map c :=
        List.map_congr_left (fun u hu => by
          have : u ≠ t := fun e => ha (e ▸ hu)
          simp [bump, this])
      simp [hmap, bump]
      omega
    · have hb : bump c t a = c a := by
        simp [bump, Ne.symm hta]
      simp only [List.map_cons, List.sum_cons, hb, ih hr, List.mem_cons]
      have : (t = a ∨ t ∈ rest) ↔ t ∈ rest := by
        constructor
        · rintro (e | hm)
          · exact absurd e hta
          · exact hm
        · exact Or.inr
      rw [if_congr this rfl rfl]
      omega

/-- Incrementing the count of a roster team raises the summed dict
values by one. -/
theorem sum_counts_bump (roster : List Team) (c : Counts) {t : Team}
    (ht : t ∈ roster) :
    sum_counts roster (bump c t) = sum_counts roster c + 1 := by
  unfold sum_counts
  rw [sum_map_bump roster.dedup (List.nodup_dedup roster) c t,
    if_pos (List.mem_dedup.mpr ht)]

/-- The count-update loop over any list of roster members (counted with
multiplicity) raises the summed dict values by the list's length. -/
theorem sum_counts_incr (roster : List Team) :
    ∀ ts : List Team, (∀ x ∈ ts, x ∈ roster) → ∀ c : Counts,
      sum_counts roster (incr_counts c ts) = sum_counts roster c + ts.length := by
  intro ts
  induction ts with
  | nil => intro _ c; simp [incr_counts]
  | cons t0 rest ih =>
    intro h c
    have e : incr_counts c (t0 :: rest) = incr_counts (bump c t0) rest := rfl
    rw [e, ih (fun x hx => h x (List.mem_cons_of_mem _ hx)) (bump c t0),
      sum_counts_bump roster c (h t0 (List.mem_cons_self _ _))]
    simp
    omega

/-- One match of the inner loop raises the summed dict values by
`teams_per_match` when `teams_per_match ≤ len(roster)`. -/
theorem sum_counts_step (roster : List Team) {tpm : Nat}
    (h : tpm ≤ roster.length) (c : Counts) :
    sum_counts roster (count_step roster tpm c) = sum_counts roster c + tpm := by
  unfold count_step
  rw [sum_counts_incr roster _ (fun x hx => mem_of_take_sorted hx) c,
    take_sorted_length h]

/-- After `k` matches the summed dict values equal `k * teams_per_match`. -/
theorem sum_counts_after (roster : List Team) {tpm : Nat}
    (h : tpm ≤ roster.length) (k : Nat) :
    sum_counts roster (counts_after roster tpm k) = k * tpm := by
  induction k with
  | zero => simp [counts_after, sum_counts]
  | succ n ih =>
    rw [counts_after, Function.iterate_succ_apply', ← counts_after,
      sum_counts_step roster h, ih]
    ring

/-! ## Structure of one generation run when the configuration is valid -/

/-- Characterisation of one day's inner loop for
`teams_per_match ≤ len(roster)`: it succeeds, its counts are the
iterates of `count_step`, its match ids are consecutive from the
incoming counter, and every match is a sorted-prefix selection at some
intermediate counts. -/
theorem gen_day_spec (sample : List Team → Nat → Option (List Team))
    {teams : List Team} {tpm : Nat} (h : tpm ≤ teams.length) :
    ∀ (m : Nat) (cnt : Counts) (mid : Nat), ∃ ms : List MatchRec,
      gen_day sample teams tpm m cnt mid =
        some (ms, (count_step teams tpm)^[m] cnt, mid + m) ∧
      ms.map MatchRec.match_id = List.range' mid m ∧
      ∀ mr ∈ ms, ∃ c : Counts, mr.teams = (sorted_teams teams c).take tpm := by
  intro m
  induction m with
  | zero =>
    intro cnt mid
    exact ⟨[], by simp [gen_day], by simp, by simp⟩
  | succ n ih =>
    intro cnt mid
    obtain ⟨ms, hms, hid, hmem⟩ := ih (count_step teams tpm cnt) (mid + 1)
    refine ⟨⟨mid, (sorted_teams teams cnt).take tpm⟩ :: ms, ?_, ?_, ?_⟩
    · have e1 : incr_counts cnt ((sorted_teams teams cnt).take tpm) =
          count_step teams tpm cnt := rfl
      have e2 : mid + 1 + n = mid + (n + 1) := by omega
      rw [gen_day, select_match_teams_eq sample h cnt]
      simp only [e1, hms, e2, Function.iterate_succ_apply]
    · simp only [List.map_cons, hid, List.range'_succ]
    · intro mr hmr
      rcases List.mem_cons.mp hmr with h1 | h2
      · exact ⟨cnt, by rw [h1]⟩
      · exact hmem mr h2

/-- The id list of a schedule decomposes day by day. -/
theorem schedule_match_ids_cons (d : DayRec) (ds : List DayRec) :
    schedule_match_ids (d :: ds) =
      d.day_matches.map MatchRec.match_id ++ schedule_match_ids ds := by
  simp [schedule_match_ids]

/-- Characterisation of the outer day loop for
`teams_per_match ≤ len(roster)`: it succeeds, the counts after it are
the `days * matches_per_day`-fold iterate of `count_step`, the match ids
are consecutive from the incoming counter, every day has exactly
`matches_per_day` matches, and every match is a sorted-prefix selection
at some intermediate counts. -/
theorem gen_days_spec (sample : List Team → Nat → Option (List Team))
    {teams : List Team} {tpm : Nat} (h : tpm ≤ teams.length) (mpd : Nat) :
    ∀ (d day : Nat) (cnt : Counts) (mid : Nat), ∃ ds : List DayRec,
      gen_days sample teams tpm mpd d day cnt mid =
        some (ds, (count_step teams tpm)^[d * mpd] cnt, mid + d * mpd) ∧
      ds.length = d ∧
      schedule_match_ids ds = List.range' mid (d * mpd) ∧
      (∀ dr ∈ ds, dr.day_matches.length = mpd) ∧
      (∀ dr ∈ ds, ∀ mr ∈ dr.day_matches, ∃ c : Counts,
        mr.teams = (sorted_teams teams c).take tpm) := by
  intro d
  induction d with
  | zero =>
    intro day cnt mid
    exact ⟨[], by simp [gen_days], by simp, by simp [schedule_match_ids],
      by simp, by simp⟩
  | succ n ih =>
    intro day cnt mid
    obtain ⟨ms, hms, hid, hmem⟩ := gen_day_spec sample h mpd cnt mid
    obtain ⟨ds, hds, hlen, hids, hdl, hdm⟩ :=
      ih (day + 1) ((count_step teams tpm)^[mpd] cnt) (mid + mpd)
    have hmslen : ms.length = mpd := by
      have hc := congrArg List.length hid
      simpa using hc
    refine ⟨⟨day, ms⟩ :: ds, ?_, ?_, ?_, ?_, ?_⟩
    · have e1 : (count_step teams tpm)^[n * mpd]
          ((count_step teams tpm)^[mpd] cnt) =
          (count_step teams tpm)^[(n + 1) * mpd] cnt := by
        rw [← Function.iterate_add_apply]
        congr 1
        ring
      have e2 : mid + mpd + n * mpd = mid + (n + 1) * mpd := by ring
      rw [gen_days]
      simp only [hms, hds, e1, e2]
    · simp [hlen]
    · rw [schedule_match_ids_cons, hid, hids]
      have e4 : (n + 1) * mpd = n * mpd + mpd := by ring
      rw [e4, ← List.range'_append mid mpd (n * mpd) 1]
      norm_num
    · intro dr hdr
      rcases List.mem_cons.mp hdr with h1 | h2
      · rw [h1]
        exact hmslen
      · exact hdl dr h2
    · intro dr hdr
      rcases List.mem_cons.mp hdr with h1 | h2
      · rw [h1]
        exact hmem
      · exact hdm dr h2

/-- Characterisation of a whole run of `generate_schedule` for
`teams_per_match ≤ len(roster)`, for an arbitrary sampler: it returns a
schedule of `tournament_days` days of `matches_per_day` matches each,
the counts after `tournament_days * matches_per_day` greedy selections,
and the match ids 1, 2, …, in day-major order. -/
theorem generate_spec (sample : List Team → Nat → Option (List Team))
    {roster : List Team} {tpm : Nat} (h : tpm ≤ roster.length)
    (days mpd : Nat) :
    ∃ sch : List DayRec,
      generate_schedule_with sample roster tpm days mpd =
        some (sch, counts_after roster tpm (days * mpd)) ∧
      sch.length = days ∧
      schedule_match_ids sch = List.range' 1 (days * mpd) ∧
      (∀ dr ∈ sch, dr.day_matches.length = mpd) ∧
      (∀ dr ∈ sch, ∀ mr ∈ dr.day_matches, ∃ c : Counts,
        mr.teams = (sorted_teams roster c).take tpm) := by
  obtain ⟨ds, hds, hlen, hids, hdl, hdm⟩ :=
    gen_days_spec sample h mpd days 1 (fun _ => 0) 1
  refine ⟨ds, ?_, hlen, hids, hdl, hdm⟩
  rw [generate_schedule_with, hds]
  rfl

/-! ## The balancing invariant -/

/-- All roster counts lie within the two-value window {m, m+1}. -/
def counts_window (roster : List Team) (m : Nat) (c : Counts) : Prop :=
  ∀ t ∈ roster, c t = m ∨ c t = m + 1

/-- One greedy selection step keeps all roster counts within a
two-value window: the selected teams are the `teams_per_match` teams of
least count, so either some minimal-count team stays unselected (and the
window stays put) or every minimal-count team is selected (and the
window moves up by one). -/
theorem counts_window_step {roster : List Team} (hnd : roster.Nodup)
    {tpm : Nat} (h : tpm ≤ roster.length) {m : Nat} {c : Counts}
    (hw : counts_window roster m c) :
    ∃ m2, counts_window roster m2 (count_step roster tpm c) := by
  have hperm : (sorted_teams roster c).Perm roster := sorted_teams_perm roster c
  have hnds : (sorted_teams roster c).Nodup := hperm.symm.nodup hnd
  have hselnd : ((sorted_teams roster c).take tpm).Nodup :=
    (List.take_sublist tpm (sorted_teams roster c)).nodup hnds
  have happly : ∀ t, count_step roster tpm c t =
      c t + (if t ∈ (sorted_teams roster c).take tpm then 1 else 0) := by
    intro t
    have e : count_step roster tpm c =
        incr_counts c ((sorted_teams roster c).take tpm) := rfl
    rw [e, incr_counts_apply _ c hselnd t]
  have hpw2 : List.Pairwise (fun a b => c a ≤ c b)
      ((sorted_teams roster c).take tpm ++ (sorted_teams roster c).drop tpm) := by
    rw [List.take_append_drop]
    exact sorted_teams_pairwise roster c
  have hsplit : ∀ a ∈ (sorted_teams roster c).take tpm,
      ∀ b ∈ (sorted_teams roster c).drop tpm, c a ≤ c b :=
    (List.pairwise_append.mp hpw2).2.2
  have hmem_split : ∀ t ∈ roster, t ∈ (sorted_teams roster c).take tpm ∨
      t ∈ (sorted_teams roster c).drop tpm := by
    intro t ht
    have hmem : t ∈ (sorted_teams roster c).take tpm ++
        (sorted_teams roster c).drop tpm := by
      rw [List.take_append_drop]
      exact hperm.mem_iff.mpr ht
    exact List.mem_append.mp hmem
  by_cases hA : ∃ u ∈ (sorted_teams roster c).drop tpm, c u = m
  · obtain ⟨u, hu, hcu⟩ := hA
    refine ⟨m, fun t ht => ?_⟩
    rw [happly t]
    by_cases hts : t ∈ (sorted_teams roster c).take tpm
    · have h1 : c t ≤ m := hcu ▸ hsplit t hts u hu
      rw [if_pos hts]
      rcases hw t ht with h2 | h2 <;> omega
    · rw [if_neg hts]
      rcases hw t ht with h2 | h2 <;> omega
  · push_neg at hA
    refine ⟨m + 1, fun t ht => ?_⟩
    rw [happly t]
    by_cases hts : t ∈ (sorted_teams roster c).take tpm
    · rw [if_pos hts]
      rcases hw t ht with h2 | h2 <;> omega
    · rw [if_neg hts]
      have hdrop : t ∈ (sorted_teams roster c).drop tpm :=
        (hmem_split t ht).resolve_left hts
      have hne := hA t hdrop
      rcases hw t ht with h2 | h2 <;> omega

/-- At every point of a run the roster counts lie within a two-value
window. -/
theorem counts_after_window {roster : List Team} (hnd : roster.Nodup)
    {tpm : Nat} (h : tpm ≤ roster.length) :
    ∀ i : Nat, ∃ m, counts_window roster m (counts_after roster tpm i) := by
  intro i
  induction i with
  | zero => exact ⟨0, fun t _ => Or.inl rfl⟩
  | succ n ih =>
    obtain ⟨m, hm⟩ := ih
    obtain ⟨m2, hm2⟩ := counts_window_step hnd h hm
    refine ⟨m2, ?_⟩
    rw [counts_after, Function.iterate_succ_apply']
    exact hm2

/-- At every point of a run, any two roster teams' counts differ by at
most one. -/
theorem counts_after_spread {roster : List Team} (hnd : roster.Nodup)
    {tpm : Nat} (h : tpm ≤ roster.length) (i : Nat) :
    ∀ a ∈ roster, ∀ b ∈ roster,
      counts_after roster tpm i a - counts_after roster tpm i b ≤ 1 := by
  obtain ⟨m, hm⟩ := counts_after_window hnd h i
  intro a ha b hb
  rcases hm a ha with h1 | h1 <;> rcases hm b hb with h2 | h2 <;> omega

/-! ## Stable-sort tie-breaking, sampler independence, failure cases -/

/-- A list is pairwise related when the relation holds for all pairs of
its members. -/
theorem pairwise_of_mem_rel {α : Type} {R : α → α → Prop} :
    ∀ l : List α, (∀ a ∈ l, ∀ b ∈ l, R a b) → List.Pairwise R l
  | [], _ => List.Pairwise.nil
  | a :: t, h =>
    List.Pairwise.cons
      (fun b hb => h a (List.mem_cons_self a t) b (List.mem_cons_of_mem a hb))
      (pairwise_of_mem_rel t
        (fun x hx y hy =>
          h x (List.mem_cons_of_mem a hx) y (List.mem_cons_of_mem a hy)))

/-- Stability of the sort: when all roster counts are equal the sort
returns the roster unchanged (ties are broken by roster order). -/
theorem sorted_teams_const (roster : List Team) (c : Counts)
    (hc : ∀ a ∈ roster, ∀ b ∈ roster, c a = c b) :
    sorted_teams roster c = roster := by
  unfold sorted_teams
  apply List.mergeSort_of_sorted
  apply pairwise_of_mem_rel
  intro a ha b hb
  rw [decide_eq_true_iff, hc a ha b hb]

/-- For `teams_per_match ≤ len(roster)` one day's inner loop never
consults the sampler. -/
theorem gen_day_sampler_indep (s1 s2 : List Team → Nat → Option (List Team))
    {teams : List Team} {tpm : Nat} (h : tpm ≤ teams.length) :
    ∀ (m : Nat) (cnt : Counts) (mid : Nat),
      gen_day s1 teams tpm m cnt mid = gen_day s2 teams tpm m cnt mid := by
  intro m
  induction m with
  | zero => intro cnt mid; rfl
  | succ n ih =>
    intro cnt mid
    rw [gen_day, gen_day, select_match_teams_eq s1 h, select_match_teams_eq s2 h]
    simp only [ih]

/-- For `teams_per_match ≤ len(roster)` the day loop never consults the
sampler. -/
theorem gen_days_sampler_indep (s1 s2 : List Team → Nat → Option (List Team))
    {teams : List Team} {tpm : Nat} (h : tpm ≤ teams.length) (mpd : Nat) :
    ∀ (d day : Nat) (cnt : Counts) (mid : Nat),
      gen_days s1 teams tpm mpd d day cnt mid =
        gen_days s2 teams tpm mpd d day cnt mid := by
  intro d
  induction d with
  | zero => intro day cnt mid; rfl
  | succ n ih =>
    intro day cnt mid
    rw [gen_days, gen_days, gen_day_sampler_indep s1 s2 h]
    simp only [ih]

/-- When `teams_per_match > len(roster)` the sorted prefix is the whole
roster, so the random-fill pool `remaining_teams` is empty and the
selection fails (the model of `random.sample` on an empty pool with a
positive draw count). -/
theorem select_match_teams_none {teams : List Team} {tpm : Nat}
    (hgt : teams.length < tpm) (cnt : Counts) :
    teams.filter (fun t => decide (t ∉ (sorted_teams teams cnt).take tpm)) = []
      ∧ select_match_teams py_sample teams tpm cnt = none := by
  have htake : (sorted_teams teams cnt).take tpm = sorted_teams teams cnt :=
    List.take_of_length_le (by rw [length_sorted_teams]; omega)
  have hfil : teams.filter
      (fun t => decide (t ∉ (sorted_teams teams cnt).take tpm)) = [] := by
    rw [List.filter_eq_nil_iff]
    intro a ha
    rw [htake]
    simp only [decide_eq_true_iff, Decidable.not_not]
    exact (sorted_teams_perm teams cnt).mem_iff.mpr ha
  have hlen : ((sorted_teams teams cnt).take tpm).length < tpm := by
    rw [htake, length_sorted_teams]
    exact hgt
  refine ⟨hfil, ?_⟩
  simp only [select_match_teams, if_pos hlen, hfil]
  have hpos : ¬ (tpm - ((sorted_teams teams cnt).take tpm).length ≤
      ([] : List Team).length) := by
    rw [htake, length_sorted_teams]
    simp only [List.length_nil]
    omega
  simp only [py_sample, if_neg hpos]

/-- When `teams_per_match > len(roster)` a day with at least one match
fails. -/
theorem gen_day_none {teams : List Team} {tpm : Nat}
    (hgt : teams.length < tpm) {m : Nat} (hm : 1 ≤ m)
    (cnt : Counts) (mid : Nat) :
    gen_day py_sample teams tpm m cnt mid = none := by
  obtain ⟨mm, rfl⟩ : ∃ mm, m = mm + 1 := ⟨m - 1, by omega⟩
  rw [gen_day, (select_match_teams_none hgt cnt).2]

/-- When `teams_per_match > len(roster)` the whole run fails as soon as
there is at least one day and one match per day. -/
theorem gen_days_none {teams : List Team} {tpm : Nat}
    (hgt : teams.length < tpm) {mpd : Nat} (hm : 1 ≤ mpd) {d : Nat}
    (hd : 1 ≤ d) (day : Nat) (cnt : Counts) (mid : Nat) :
    gen_days py_sample teams tpm mpd d day cnt mid = none := by
  obtain ⟨dd, rfl⟩ : ∃ dd, d = dd + 1 := ⟨d - 1, by omega⟩
  rw [gen_days, gen_day_none hgt hm cnt mid]

/-! ## The specification's claims -/

/-- Claim C1: for every roster and every configuration with
2 ≤ teams_per_match ≤ len(roster), tournament_days ≥ 1 and
matches_per_day ≥ 1, generate returns a Schedule containing exactly
tournament_days day records, each containing exactly matches_per_day
match records, each containing exactly teams_per_match teams. -/
theorem claim_C1_schedule_shape (roster : List Team) (tpm days mpd : Nat)
    (h2 : 2 ≤ tpm) (h : tpm ≤ roster.length) (hd : 1 ≤ days) (hm : 1 ≤ mpd) :
    ∃ sch cnt, generate_schedule roster tpm days mpd = some (sch, cnt) ∧
      sch.length = days ∧
      (∀ dr ∈ sch, dr.day_matches.length = mpd) ∧
      (∀ dr ∈ sch, ∀ mr ∈ dr.day_matches, mr.teams.length = tpm) := by
  obtain ⟨sch, hgen, hlen, _, hdl, hdm⟩ := generate_spec py_sample h days mpd
  refine ⟨sch, _, hgen, hlen, hdl, fun dr hdr mr hmr => ?_⟩
  obtain ⟨c, hc⟩ := hdm dr hdr mr hmr
  rw [hc, take_sorted_length h]

/-- Witness for C1 at roster [A, B], 2 teams per match, 1 day, 1 match
per day. -/
theorem claim_C1_witness :
    (2 ≤ 2 ∧ 2 ≤ (["A", "B"] : List Team).length ∧ 1 ≤ 1 ∧ 1 ≤ 1) ∧
    (∃ sch cnt, generate_schedule ["A", "B"] 2 1 1 = some (sch, cnt) ∧
      sch.length = 1 ∧
      (∀ dr ∈ sch, dr.day_matches.length = 1) ∧
      (∀ dr ∈ sch, ∀ mr ∈ dr.day_matches, mr.teams.length = 2)) :=
  ⟨⟨by decide, by decide, by decide, by decide⟩,
    claim_C1_schedule_shape ["A", "B"] 2 1 1 (by decide) (by decide)
      (by decide) (by decide)⟩

/-- Claim C2: for every roster and configuration with
teams_per_match ≤ len(roster), tournament_days ≥ 1 and
matches_per_day ≥ 1, the values of the final MatchCount mapping sum to
tournament_days * matches_per_day * teams_per_match. -/
theorem claim_C2_counts_sum (roster : List Team) (tpm days mpd : Nat)
    (h : tpm ≤ roster.length) (hd : 1 ≤ days) (hm : 1 ≤ mpd) :
    ∃ sch cnt, generate_schedule roster tpm days mpd = some (sch, cnt) ∧
      sum_counts roster cnt = days * mpd * tpm := by
  obtain ⟨sch, hgen, _, _, _, _⟩ := generate_spec py_sample h days mpd
  exact ⟨sch, _, hgen, by rw [sum_counts_after roster h (days * mpd)]⟩

/-- Witness for C2 at roster [A, B], 2 teams per match, 1 day, 1 match
per day. -/
theorem claim_C2_witness :
    (2 ≤ (["A", "B"] : List Team).length ∧ 1 ≤ 1 ∧ 1 ≤ 1) ∧
    (∃ sch cnt, generate_schedule ["A", "B"] 2 1 1 = some (sch, cnt) ∧
      sum_counts ["A", "B"] cnt = 1 * 1 * 2) :=
  ⟨⟨by decide, by decide, by decide⟩,
    claim_C2_counts_sum ["A", "B"] 2 1 1 (by decide) (by decide) (by decide)⟩

/-- Claim C3: for every duplicate-free roster and configuration with
teams_per_match ≤ len(roster), at every point during a run (after each
match's counts are incremented) the maximum and minimum MatchCount
values over the roster differ by at most 1 — stated as: any two roster
teams' counts differ by at most 1 after every number of greedy steps,
and the MatchCount returned by generate is exactly the
(days * matches_per_day)-step iterate, so every intermediate state of
the run is one of the quantified states. -/
theorem claim_C3_balanced (roster : List Team) (tpm days mpd : Nat)
    (hnd : roster.Nodup) (h : tpm ≤ roster.length) :
    (∀ i : Nat, ∀ a ∈ roster, ∀ b ∈ roster,
      counts_after roster tpm i a - counts_after roster tpm i b ≤ 1) ∧
    (∀ sch cnt, generate_schedule roster tpm days mpd = some (sch, cnt) →
      cnt = counts_after roster tpm (days * mpd)) := by
  constructor
  · exact fun i => counts_after_spread hnd h i
  · intro sch cnt hgen
    obtain ⟨sch2, hgen2, _, _, _, _⟩ := generate_spec py_sample h days mpd
    rw [generate_schedule] at hgen
    rw [hgen] at hgen2
    exact congrArg Prod.snd (Option.some.inj hgen2)

/-- Witness for C3 at roster [A, B], 2 teams per match, 1 day, 1 match
per day. -/
theorem claim_C3_witness :
    ((["A", "B"] : List Team).Nodup ∧ 2 ≤ (["A", "B"] : List Team).length) ∧
    ((∀ i : Nat, ∀ a ∈ (["A", "B"] : List Team), ∀ b ∈ (["A", "B"] : List Team),
      counts_after ["A", "B"] 2 i a - counts_after ["A", "B"] 2 i b ≤ 1) ∧
    (∀ sch cnt, generate_schedule ["A", "B"] 2 1 1 = some (sch, cnt) →
      cnt = counts_after ["A", "B"] 2 (1 * 1))) :=
  ⟨⟨by decide, by decide⟩,
    claim_C3_balanced ["A", "B"] 2 1 1 (by decide) (by decide)⟩

/-- Claim C4: for every roster and configuration with
teams_per_match ≤ len(roster), tournament_days ≥ 1 and
matches_per_day ≥ 1, the match ids read off the Schedule in day-major,
match-minor order are exactly 1, 2, …, tournament_days *
matches_per_day. -/
theorem claim_C4_match_ids (roster : List Team) (tpm days mpd : Nat)
    (h : tpm ≤ roster.length) (hd : 1 ≤ days) (hm : 1 ≤ mpd) :
    ∃ sch cnt, generate_schedule roster tpm days mpd = some (sch, cnt) ∧
      schedule_match_ids sch = List.range' 1 (days * mpd) := by
  obtain ⟨sch, hgen, _, hids, _, _⟩ := generate_spec py_sample h days mpd
  exact ⟨sch, _, hgen, hids⟩

/-- Witness for C4 at roster [A, B], 2 teams per match, 1 day, 1 match
per day. -/
theorem claim_C4_witness :
    (2 ≤ (["A", "B"] : List Team).length ∧ 1 ≤ 1 ∧ 1 ≤ 1) ∧
    (∃ sch cnt, generate_schedule ["A", "B"] 2 1 1 = some (sch, cnt) ∧
      schedule_match_ids sch = List.range' 1 (1 * 1)) :=
  ⟨⟨by decide, by decide, by decide⟩,
    claim_C4_match_ids ["A", "B"] 2 1 1 (by decide) (by decide) (by decide)⟩

/-- Claim C5: for every duplicate-free roster and configuration with
teams_per_match ≤ len(roster), no match of the returned Schedule
contains the same team twice. -/
theorem claim_C5_no_duplicates (roster : List Team) (tpm days mpd : Nat)
    (hnd : roster.Nodup) (h : tpm ≤ roster.length) :
    ∃ sch cnt, generate_schedule roster tpm days mpd = some (sch, cnt) ∧
      ∀ dr ∈ sch, ∀ mr ∈ dr.day_matches, mr.teams.Nodup := by
  obtain ⟨sch, hgen, _, _, _, hdm⟩ := generate_spec py_sample h days mpd
  refine ⟨sch, _, hgen, fun dr hdr mr hmr => ?_⟩
  obtain ⟨c, hc⟩ := hdm dr hdr mr hmr
  rw [hc]
  exact nodup_take_sorted hnd c tpm

/-- Witness for C5 at roster [A, B], 2 teams per match, 1 day, 1 match
per day. -/
theorem claim_C5_witness :
    ((["A", "B"] : List Team).Nodup ∧ 2 ≤ (["A", "B"] : List Team).length) ∧
    (∃ sch cnt, generate_schedule ["A", "B"] 2 1 1 = some (sch, cnt) ∧
      ∀ dr ∈ sch, ∀ mr ∈ dr.day_matches, mr.teams.Nodup) :=
  ⟨⟨by decide, by decide⟩,
    claim_C5_no_duplicates ["A", "B"] 2 1 1 (by decide) (by decide)⟩

/-- Claim C6: for roster [T1, …, T10], 4 teams per match, 1 day and 2
matches per day, generate returns one day with two matches, match 1
with id 1 and teams [T1, T2, T3, T4], match 2 with id 2 and teams
[T5, T6, T7, T8], and the final MatchCount maps T1 through T8 to 1 and
T9, T10 to 0 (the counts are read off by mapping the roster through the
returned mapping). -/
theorem claim_C6_example_scenario :
    (generate_schedule ["T1", "T2", "T3", "T4", "T5", "T6", "T7", "T8",
        "T9", "T10"] 4 1 2).map Prod.fst =
      some [⟨1, [⟨1, ["T1", "T2", "T3", "T4"]⟩,
        ⟨2, ["T5", "T6", "T7", "T8"]⟩]⟩] ∧
    (generate_schedule ["T1", "T2", "T3", "T4", "T5", "T6", "T7", "T8",
        "T9", "T10"] 4 1 2).map
        (fun p => ["T1", "T2", "T3", "T4", "T5", "T6", "T7", "T8",
          "T9", "T10"].map p.2) =
      some [1, 1, 1, 1, 1, 1, 1, 1, 0, 0] := by
  constructor <;>
    simp [generate_schedule, generate_schedule_with, gen_days, gen_day,
      select_match_teams, sorted_teams, List.mergeSort, List.merge,
      incr_counts, bump, py_sample]

/-- Claim C7: for every roster with all teams at equal current
MatchCount (they all start at 0) and teams_per_match ≤ len(roster), the
first match of the generated Schedule is exactly the first
teams_per_match teams in roster order — the sort is stable, so
all-equal counts leave the roster order unchanged. -/
theorem claim_C7_first_match (roster : List Team) (tpm days mpd : Nat)
    (h : tpm ≤ roster.length) (hd : 1 ≤ days) (hm : 1 ≤ mpd) :
    ∃ sch cnt, generate_schedule roster tpm days mpd = some (sch, cnt) ∧
      ∃ d0 ds, sch = d0 :: ds ∧
        ∃ m0 ms, d0.day_matches = m0 :: ms ∧ m0.teams = roster.take tpm := by
  obtain ⟨dd, rfl⟩ : ∃ dd, days = dd + 1 := ⟨days - 1, by omega⟩
  obtain ⟨mm, rfl⟩ : ∃ mm, mpd = mm + 1 := ⟨mpd - 1, by omega⟩
  have hconst : sorted_teams roster (fun _ => 0) = roster :=
    sorted_teams_const roster _ (fun a _ b _ => rfl)
  have hsel : select_match_teams py_sample roster tpm (fun _ => 0) =
      some (roster.take tpm) := by
    rw [select_match_teams_eq py_sample h, hconst]
  have hcb : incr_counts (fun _ => 0) (roster.take tpm) =
      count_step roster tpm (fun _ => 0) := by
    rw [count_step, hconst]
  obtain ⟨ms1, hms1, _, _⟩ :=
    gen_day_spec py_sample h mm (count_step roster tpm (fun _ => 0)) (1 + 1)
  have hday : gen_day py_sample roster tpm (mm + 1) (fun _ => 0) 1 =
      some (⟨1, roster.take tpm⟩ :: ms1,
        (count_step roster tpm)^[mm] (count_step roster tpm (fun _ => 0)),
        1 + 1 + mm) := by
    rw [gen_day]
    simp only [hsel, hcb, hms1]
  obtain ⟨ds1, hds1, _, _, _, _⟩ :=
    gen_days_spec py_sample h (mm + 1) dd (1 + 1)
      ((count_step roster tpm)^[mm] (count_step roster tpm (fun _ => 0)))
      (1 + 1 + mm)
  have hdays : gen_days py_sample roster tpm (mm + 1) (dd + 1) 1
      (fun _ => 0) 1 =
      some (⟨1, ⟨1, roster.take tpm⟩ :: ms1⟩ :: ds1,
        (count_step roster tpm)^[dd * (mm + 1)]
          ((count_step roster tpm)^[mm] (count_step roster tpm (fun _ => 0))),
        1 + 1 + mm + dd * (mm + 1)) := by
    rw [gen_days]
    simp only [hday, hds1]
  refine ⟨⟨1, ⟨1, roster.take tpm⟩ :: ms1⟩ :: ds1,
    (count_step roster tpm)^[dd * (mm + 1)]
      ((count_step roster tpm)^[mm] (count_step roster tpm (fun _ => 0))),
    ?_, ⟨1, ⟨1, roster.take tpm⟩ :: ms1⟩, ds1, rfl,
    ⟨1, roster.take tpm⟩, ms1, rfl, rfl⟩
  rw [generate_schedule, generate_schedule_with]
  simp only [hdays]

/-- Witness for C7 at roster [A, B, C], 2 teams per match, 1 day, 1
match per day. -/
theorem claim_C7_witness :
    (2 ≤ (["A", "B", "C"] : List Team).length ∧ 1 ≤ 1 ∧ 1 ≤ 1) ∧
    (∃ sch cnt, generate_schedule ["A", "B", "C"] 2 1 1 = some (sch, cnt) ∧
      ∃ d0 ds, sch = d0 :: ds ∧
        ∃ m0 ms, d0.day_matches = m0 :: ms ∧
          m0.teams = (["A", "B", "C"] : List Team).take 2) :=
  ⟨⟨by decide, by decide, by decide⟩,
    claim_C7_first_match ["A", "B", "C"] 2 1 1 (by decide) (by decide)
      (by decide)⟩

/-- Claim C8 counterexample: at roster [T1, T2] with 3 teams per match
(more than the roster size), one day and one match per day, the primary
selection is short, yet generate does not produce a 3-team match — it
produces no schedule at all, because the random fill draws from an
empty pool and `random.sample` raises. -/
theorem claim_C8_counterexample :
    (["T1", "T2"] : List Team).length < 3 ∧
    generate_schedule ["T1", "T2"] 3 1 1 = none := by
  constructor
  · decide
  · simp [generate_schedule, generate_schedule_with, gen_days, gen_day,
      select_match_teams, sorted_teams, List.mergeSort, List.merge,
      py_sample]

/-- Claim C8 as amended: whenever the primary selection has fewer than
teams_per_match teams — exactly when teams_per_match > len(roster) —
the pool of teams not already selected (`remaining_teams`) is empty, so
the random fill has nothing to draw from: `random.sample` raises and no
match of teams_per_match teams is produced (generate returns no
Schedule). -/
theorem claim_C8_random_fill_fails (roster : List Team)
    (tpm days mpd : Nat) (hgt : roster.length < tpm)
    (hd : 1 ≤ days) (hm : 1 ≤ mpd) :
    (∀ c : Counts, roster.filter
      (fun t => decide (t ∉ (sorted_teams roster c).take tpm)) = []) ∧
    generate_schedule roster tpm days mpd = none := by
  refine ⟨fun c => (select_match_teams_none hgt c).1, ?_⟩
  rw [generate_schedule, generate_schedule_with,
    gen_days_none hgt hm hd 1 (fun _ => 0) 1]

/-- Witness for the amended C8 at roster [T1, T2], 3 teams per match, 1
day, 1 match per day. -/
theorem claim_C8_witness :
    ((["T1", "T2"] : List Team).length < 3 ∧ 1 ≤ 1 ∧ 1 ≤ 1) ∧
    ((∀ c : Counts, (["T1", "T2"] : List Team).filter
      (fun t => decide (t ∉ (sorted_teams ["T1", "T2"] c).take 3)) = []) ∧
    generate_schedule ["T1", "T2"] 3 1 1 = none) :=
  ⟨⟨by decide, by decide, by decide⟩,
    claim_C8_random_fill_fails ["T1", "T2"] 3 1 1 (by decide) (by decide)
      (by decide)⟩

/-- Claim C9: for every roster and configuration with
teams_per_match ≤ len(roster) the random-fill branch is never taken, so
generation does not depend on the random source: runs with any two
samplers return identical Schedules and identical final MatchCount
mappings. -/
theorem claim_C9_deterministic
    (s1 s2 : List Team → Nat → Option (List Team))
    (roster : List Team) (tpm days mpd : Nat) (h : tpm ≤ roster.length) :
    generate_schedule_with s1 roster tpm days mpd =
      generate_schedule_with s2 roster tpm days mpd := by
  rw [generate_schedule_with, generate_schedule_with,
    gen_days_sampler_indep s1 s2 h]

/-- Witness for C9 at roster [A, B], 2 teams per match, comparing the
`random.sample` model with the sampler that always fails. -/
theorem claim_C9_witness :
    2 ≤ (["A", "B"] : List Team).length ∧
    generate_schedule_with py_sample ["A", "B"] 2 1 1 =
      generate_schedule_with (fun _ _ => none) ["A", "B"] 2 1 1 :=
  ⟨by decide,
    claim_C9_deterministic py_sample (fun _ _ => none) ["A", "B"] 2 1 1
      (by decide)⟩

/-- Claim C10: for every roster and configuration with
teams_per_match ≥ 2, tournament_days ≥ 1 and matches_per_day ≥ 1,
generate raises (returns no Schedule) exactly when
teams_per_match > len(roster); under teams_per_match ≤ len(roster) it
never raises. -/
theorem claim_C10_raises_iff (roster : List Team) (tpm days mpd : Nat)
    (h2 : 2 ≤ tpm) (hd : 1 ≤ days) (hm : 1 ≤ mpd) :
    generate_schedule roster tpm days mpd = none ↔ roster.length < tpm := by
  constructor
  · intro hnone
    by_contra hle
    push_neg at hle
    obtain ⟨sch, hgen, _, _, _, _⟩ := generate_spec py_sample hle days mpd
    rw [generate_schedule, hgen] at hnone
    exact Option.noConfusion hnone
  · intro hgt
    rw [generate_schedule, generate_schedule_with,
      gen_days_none hgt hm hd 1 (fun _ => 0) 1]

/-- Witness for C10 at roster [T1, T2], 3 teams per match, 1 day, 1
match per day (the failing direction of the equivalence). -/
theorem claim_C10_witness :
    (2 ≤ 3 ∧ 1 ≤ 1 ∧ 1 ≤ 1) ∧
    (generate_schedule ["T1", "T2"] 3 1 1 = none ↔
      (["T1", "T2"] : List Team).length < 3) :=
  ⟨⟨by decide, by decide, by decide⟩,
    claim_C10_raises_iff ["T1", "T2"] 3 1 1 (by decide) (by decide)
      (by decide)⟩
